import Mathlib

/-! Verification of the Fuel Wallet connector (`FuelWalletConnector.ts`): a shallow
embedding of the connector's message acceptance, event routing, lifecycle
handshake, and capability-call validation, together with theorems settling the
specified properties.
-/

namespace FuelWallet

/-! JavaScript value model.

A small JSON-like value universe, enough to express the shapes the connector
inspects (`typeof resp === 'object'`, `'id' in resp`, truthiness). -/

inductive JsVal where
  | str (s : String)
  | num (n : Int)
  | boolean (b : Bool)
  | nullV
  | obj (fields : List (String × JsVal))
deriving Repr

/-- JS truthiness of a value: empty string, zero, `false` and `null` are falsy;
every object is truthy. -/
def JsVal.truthy : JsVal → Bool
  | .str s => s != ""
  | .num n => n != 0
  | .boolean b => b
  | .nullV => false
  | .obj _ => true

/-- The `typeof v === 'object'` test (here `null` also reports `'object'` in JS,
matching the source's explicit `!== null` guards where they occur). -/
def JsVal.isObjectType : JsVal → Bool
  | .obj _ => true
  | .nullV => true
  | _ => false

/-- Property lookup `v["k"]`: `some` the field value on an object that has the
field, `none` (JS `undefined`) otherwise. -/
def JsVal.getField : JsVal → String → Option JsVal
  | .obj fields, k => (fields.find? (fun f => f.1 == k)).map (·.2)
  | _, _ => none

/-- The `'k' in v` test on an object. -/
def JsVal.hasField (v : JsVal) (k : String) : Bool :=
  (v.getField k).isSome

/-- JS whitespace characters removed by `String.prototype.trim`. -/
def isJsWhitespace (c : Char) : Bool :=
  c == ' ' || c == '\t' || c == '\n' || c == '\r' || c == '\x0b' || c == '\x0c'

/-- The test `!s.trim()`: the string trims to the empty string, i.e. every
character is whitespace. -/
def trimIsEmpty (s : String) : Bool :=
  s.toList.all isJsWhitespace

/-! Channel message model.

From `types.ts` (referenced by the source) and the spec's envelope: a tagged
union of `request` / `response` / `event` messages, each stamped with the
connector identity (`connectorName`) and a logical `target` endpoint. -/

/-- Message kind tags (`MessageTypes` in the source). -/
inductive MessageType where
  | request
  | response
  | event
deriving DecidableEq, Repr

/-- An RPC response envelope as delivered to `client.receive` (its internal
structure is owned by the RPC client; the connector only forwards it). -/
structure RpcResponseBody where
  id : String
  payload : JsVal
deriving Repr

/-- One `{event, params}` tuple of an event notification message. -/
structure EventTuple where
  event : String
  params : List JsVal
deriving Repr

/-- An outbound JSON-RPC request `{id, method, params}`. -/
structure RpcReq where
  id : String
  method : String
  params : JsVal
deriving Repr

/-- The kind-specific payload of a channel message. -/
inductive MsgBody where
  | request (req : RpcReq)
  | response (resp : RpcResponseBody)
  | event (events : List EventTuple)
deriving Repr

/-- The `type` tag carried by a message (the discriminant of the TS union). -/
def MsgBody.msgType : MsgBody → MessageType
  | .request _ => .request
  | .response _ => .response
  | .event _ => .event

/-- A `CommunicationMessage`: the tagged payload plus the identity and target
stamps checked by the acceptance predicate. -/
structure CommunicationMessage where
  connectorName : String
  target : String
  body : MsgBody
deriving Repr

/-- A platform `MessageEvent`: the sender origin plus the message data. -/
structure MessageEvent where
  origin : String
  data : CommunicationMessage
deriving Repr

/-- Modelled from the spec: `CONNECTOR_SCRIPT` from `constants.ts` (not under
`src/`), the page-side logical endpoint name of the envelope's
`target : "page" | "agent"` field. -/
def CONNECTOR_SCRIPT : String := "page"

/-- Modelled from the spec: `CONTENT_SCRIPT_NAME` from `constants.ts` (not
under `src/`), the agent-side logical endpoint name. -/
def CONTENT_SCRIPT_NAME : String := "agent"

/-! Connector state.

The connector's observable state: its identity plus logs of every externally
visible effect. No method of the source file mutates the identity fields after
construction; effects are appended to the logs. -/

/-- Observable connector state: the identity string and the effect logs
(messages posted to the window, responses handed to the RPC client, events
emitted to subscribers, readiness handshakes triggered). -/
structure ConnectorState where
  name : String
  outbox : List CommunicationMessage
  responsesDelivered : List RpcResponseBody
  emitted : List (String × List JsVal)
  setupsTriggered : Nat
deriving Repr

/-- Constructor: `new FuelWalletConnector(name)` stores the name; no effects
have occurred yet. -/
def mkConnector (name : String) : ConnectorState :=
  { name := name, outbox := [], responsesDelivered := [], emitted := [],
    setupsTriggered := 0 }

/-- The acceptance predicate `acceptMessage` (source lines 85–93): same origin,
not a `request`, matching connector name, targeted at the page-side endpoint. -/
def acceptMessage (selfName windowOrigin : String) (message : MessageEvent) : Bool :=
  message.origin == windowOrigin &&
  message.data.body.msgType != MessageType.request &&
  message.data.connectorName == selfName &&
  message.data.target == CONNECTOR_SCRIPT

/-- Actions produced by event routing: either re-trigger the readiness
handshake, or emit a named event with its parameter list to subscribers. -/
inductive EvAction where
  | setup
  | emit (name : String) (params : List JsVal)
deriving Repr

/-- The event router `onEvent` (source lines 122–130): each tuple, in array
order, becomes either a `setupConnector` invocation (for the reserved
`'start'` event) or an emission to subscribers. -/
def onEvent : List EventTuple → List EvAction
  | [] => []
  | e :: rest =>
    (if e.event == "start" then EvAction.setup else EvAction.emit e.event e.params)
      :: onEvent rest

/-- Apply the actions of one event notification to the state. -/
def applyEvActions (s : ConnectorState) : List EvAction → ConnectorState
  | [] => s
  | EvAction.setup :: rest =>
    applyEvActions { s with setupsTriggered := s.setupsTriggered + 1 } rest
  | EvAction.emit n p :: rest =>
    applyEvActions { s with emitted := s.emitted ++ [(n, p)] } rest

/-- The protocol demultiplexer `onCommunicationMessage` (source lines
139–149): responses go to `client.receive`, event notifications to the event
router, anything else to the empty default branch. -/
def onCommunicationMessage (s : ConnectorState) (m : CommunicationMessage) : ConnectorState :=
  match m.body with
  | .response r => { s with responsesDelivered := s.responsesDelivered ++ [r] }
  | .event evs => applyEvActions s (onEvent evs)
  | .request _ => s

/-- The inbound listener `onMessage` (source lines 132–137): accepted messages
are handed to `onCommunicationMessage`; everything else is dropped. -/
def onMessage (windowOrigin : String) (s : ConnectorState) (m : MessageEvent) : ConnectorState :=
  if acceptMessage s.name windowOrigin m then onCommunicationMessage s m.data else s

/-- The outbound `sendRequest` (source lines 108–116): a `null` request does
nothing; otherwise the request is posted on the channel stamped with the
agent-side target and the connector's own name. -/
def sendRequest (s : ConnectorState) (request : Option RpcReq) : ConnectorState :=
  match request with
  | none => s
  | some r =>
    { s with outbox := s.outbox ++
        [{ connectorName := s.name, target := CONTENT_SCRIPT_NAME, body := .request r }] }

/-- An externally triggered operation of the connector: a window message
arriving, or the RPC client flushing an outbound request. -/
inductive Op where
  | recv (windowOrigin : String) (m : MessageEvent)
  | send (request : Option RpcReq)

/-- Operational step function: dispatch one operation against the state. -/
def applyOp (s : ConnectorState) : Op → ConnectorState
  | .recv w m => onMessage w s m
  | .send r => sendRequest s r

/-- Run a sequence of operations from a state. -/
def runOps (s : ConnectorState) (ops : List Op) : ConnectorState :=
  ops.foldl applyOp s

/-! RPC call semantics.

The request/response correlation layer is the external `json-rpc-2.0` client
(its code is not under `src/`); its behaviour for a single call is modelled
from the spec, §4.2. -/

/-- Modelled from the spec: the agent side of one RPC exchange — it replies
with a result after `at_ms` milliseconds, replies with an error after `at_ms`
milliseconds, or never replies. -/
inductive AgentBehavior where
  | replies (result : Bool) (at_ms : Nat)
  | repliesError (e : String) (at_ms : Nat)
  | silent
deriving DecidableEq, Repr

/-- Outcome of one RPC call as observed by its caller: the promise resolves,
rejects, or never settles. -/
inductive CallOutcome where
  | resolved (b : Bool)
  | rejected (e : String)
  | pending
deriving DecidableEq, Repr

/-- Modelled from the spec (§4.2, `json-rpc-2.0` client, code not under
`src/`): a call with an optional timeout resolves or rejects with the agent's
reply when it arrives before the timeout; the armed timer rejects with a
timeout error when no reply arrives in time; a call with no timeout and no
reply never settles. -/
def rpcRequest (timeoutMs : Option Nat) (agent : AgentBehavior) : CallOutcome :=
  match agent, timeoutMs with
  | .replies b t, some limit => if t < limit then .resolved b else .rejected "Request timeout"
  | .replies b _, none => .resolved b
  | .repliesError e t, some limit => if t < limit then .rejected e else .rejected "Request timeout"
  | .repliesError e _, none => .rejected e
  | .silent, some _ => .rejected "Request timeout"
  | .silent, none => .pending

/-- The presence probe `ping` (source lines 187–189):
`this.client.timeout(800).request('ping', {})`. -/
def ping (agent : AgentBehavior) : CallOutcome :=
  rpcRequest (some 800) agent

/-- The connectivity probe `isConnected` (source lines 191–198): the plain
`isConnected` RPC call with any rejection caught and turned into `false`. -/
def isConnected (agent : AgentBehavior) : CallOutcome :=
  match rpcRequest none agent with
  | .rejected _ => .resolved false
  | o => o

/-- Result of running `setupConnector` (source lines 73–83): whether the
presence announcement (`CustomEvent(FuelConnectorEventType)` carrying the
connector) was dispatched, and which error, if any, escaped to the caller. -/
structure SetupResult where
  announced : Bool
  propagated : Option String
deriving DecidableEq, Repr

/-- The readiness handshake `setupConnector`: outside a window environment it
does nothing; otherwise it pings, announces on any resolution, and swallows
any rejection (`.catch(() => {})`). -/
def setupConnector (hasWindow : Bool) (agent : AgentBehavior) : SetupResult :=
  if hasWindow then
    match ping agent with
    | .resolved _ => { announced := true, propagated := none }
    | .rejected _ => { announced := false, propagated := none }
    | .pending => { announced := false, propagated := none }
  else
    { announced := false, propagated := none }

/-! Capability calls.

Each capability is embedded as the computation from its arguments to either a
synchronously thrown validation error or the single call handed to
`client.request`. -/

/-- The value of a `personalSign` field: a string or a byte array. -/
inductive PSVal where
  | str (s : String)
  | bytes (bs : List Nat)
deriving DecidableEq, Repr

/-- A `HashableMessage` argument: a plain string, or an object whose
`personalSign` field may be absent (`none` plays JS `undefined`). -/
inductive HashableMessage where
  | str (s : String)
  | objMsg (personalSign : Option PSVal)
deriving DecidableEq, Repr

/-- Truthiness of `message.personalSign`: absent and empty-string values are
falsy; a byte array (an object) is always truthy. -/
def psTruthy : Option PSVal → Bool
  | none => false
  | some (.str s) => s != ""
  | some (.bytes _) => true

/-- An asset's per-network variant (`networks` entry): only the `type` tag and
the fields read through the `as AssetFuel` cast are modelled; `assetId` and
`decimals` are optional because non-fuel variants need not carry them. -/
structure AssetNetwork where
  type : String
  assetId : Option String
  decimals : Option Nat
deriving DecidableEq, Repr

/-- A domain asset: display fields plus its network variants. -/
structure Asset where
  name : String
  symbol : String
  icon : String
  networks : List AssetNetwork
deriving DecidableEq, Repr

/-- The normalized asset sent to the agent: the spread of the asset plus
`imageUrl`, `decimals` and `assetId` drawn from its fuel variant. -/
structure NormalizedAsset where
  name : String
  symbol : String
  icon : String
  networks : List AssetNetwork
  imageUrl : String
  decimals : Option Nat
  assetId : Option String
deriving DecidableEq, Repr

/-- Parameter payloads of the modelled capability calls. -/
inductive CallParams where
  | signMessageP (address : String) (message : HashableMessage)
  | addAssetsP (assets : List NormalizedAsset)
  | addNetworkP (url : String) (chainName : String)
deriving DecidableEq, Repr

/-- One call handed to `client.request`: the RPC method name and its
parameters (the request id is generated later, inside the RPC client). -/
structure ClientCall where
  method : String
  params : CallParams
deriving DecidableEq, Repr

/-- The RPC calls a capability invocation hands to the client: none when it
throws a validation error, exactly the one call otherwise. -/
def sentCalls : Except String ClientCall → List ClientCall
  | Except.error _ => []
  | Except.ok c => [c]

/-- The capability `signMessage` (source lines 219–238): a blank string or an
object with a falsy `personalSign` throws `Message is required` before any
call; otherwise the one `signMessage` call is issued. -/
def signMessage (address : String) (message : HashableMessage) : Except String ClientCall :=
  match message with
  | .str s =>
    if trimIsEmpty s then Except.error "Message is required"
    else Except.ok { method := "signMessage", params := .signMessageP address message }
  | .objMsg ps =>
    if psTruthy ps then Except.ok { method := "signMessage", params := .signMessageP address message }
    else Except.error "Message is required"

/-- The body of the `assets.map` callback in `addAssets` (source lines
314–327): find the first fuel-typed network variant, throw when there is
none, otherwise build the normalized asset. -/
def normalizeAsset (asset : Asset) : Except String NormalizedAsset :=
  match asset.networks.find? (fun n => n.type == "fuel") with
  | none => Except.error "Asset for Fuel Network not found!"
  | some fuelNetworkAsset =>
    Except.ok { name := asset.name, symbol := asset.symbol, icon := asset.icon,
                networks := asset.networks, imageUrl := asset.icon,
                decimals := fuelNetworkAsset.decimals,
                assetId := fuelNetworkAsset.assetId }

/-- Left-to-right `map` whose body may throw: the first failing element aborts
the whole batch (JS `Array.prototype.map` with a `throw` in the callback). -/
def mapExcept (f : α → Except ε β) : List α → Except ε (List β)
  | [] => Except.ok []
  | a :: rest =>
    match f a with
    | Except.error e => Except.error e
    | Except.ok b =>
      match mapExcept f rest with
      | Except.error e => Except.error e
      | Except.ok bs => Except.ok (b :: bs)

/-- The capability `addAssets` (source lines 310–331): normalize the whole
batch, then issue the one `addAssets` call with the normalized data. -/
def addAssets (assets : List Asset) : Except String ClientCall :=
  match mapExcept normalizeAsset assets with
  | Except.error e => Except.error e
  | Except.ok assetsData =>
    Except.ok { method := "addAssets", params := .addAssetsP assetsData }

/-- The capability `addAsset` (source lines 306–308): delegates to `addAssets`
on the singleton batch. -/
def addAsset (asset : Asset) : Except String ClientCall :=
  addAssets [asset]

/-- Chain metadata returned by the auxiliary `provider.getChain()` lookup (an
external `fuels` call); only the `name` field is read. -/
structure ChainInfo where
  name : String
deriving DecidableEq, Repr

/-- The capability `addNetwork` (source lines 366–378), parametric in the
outcome of the awaited `provider.getChain()` lookup: the lookup is evaluated
while building the request parameters, so its failure propagates unchanged
and no call is issued; on success the one `addNetwork` call carries the URL
and the looked-up chain name. -/
def addNetwork (networkUrl : String) (getChain : Except String ChainInfo) : Except String ClientCall :=
  match getChain with
  | Except.error e => Except.error e
  | Except.ok chain =>
    Except.ok { method := "addNetwork", params := .addNetworkP networkUrl chain.name }

/-! Send-transaction result shaping. -/

/-- The reconstructed rich response produced by the external
`deserializeTransactionResponseJson` helper, modelled as a tag around the
serialized form it was built from. -/
structure TransactionResponse where
  json : JsVal
deriving Repr

/-- Modelled wrapper for the external `fuels.deserializeTransactionResponseJson`. -/
def deserializeTransactionResponseJson (v : JsVal) : TransactionResponse :=
  { json := v }

/-- What `sendTransaction` returns to its caller: the rich response type or a
plain value (`resp?.id || resp`). -/
inductive SendTxOutcome where
  | rich (r : TransactionResponse)
  | plain (v : JsVal)
deriving Repr

/-- The result shaping at the end of `sendTransaction` (source lines 263–267):
an object with both `id` and `providerCache` is deserialized into the rich
type; otherwise `resp?.id || resp` returns the `id` field when it exists and
is truthy, and the raw result when it does not. (A `null` result would make
the JS `in` test throw; the RPC contract never returns one, and the embedding
lets the guard fail instead.) -/
def sendTransactionResult (resp : JsVal) : SendTxOutcome :=
  if resp.isObjectType && resp.hasField "id" && resp.hasField "providerCache" then
    .rich (deserializeTransactionResponseJson resp)
  else
    match resp.getField "id" with
    | some v => if v.truthy then .plain v else .plain resp
    | none => .plain resp

/-- The validation condition actually enforced by `signMessage`: a string
argument must not trim to empty, and an object argument must carry a truthy
`personalSign` value (so an empty-string `personalSign` also fails, not only
an absent one). -/
def msgFailsValidation : HashableMessage → Bool
  | .str s => trimIsEmpty s
  | .objMsg ps => !psTruthy ps

/-! Theorems settling the claimed properties, with supporting lemmas. -/

/-- Lemma: a batch map whose body succeeds on every element succeeds. -/
theorem mapExcept_ok_of_forall {α β : Type} (f : α → Except String β) (l : List α)
    (h : ∀ a ∈ l, ∃ b, f a = Except.ok b) : ∃ bs, mapExcept f l = Except.ok bs := by
  induction l with
  | nil => exact ⟨[], rfl⟩
  | cons a rest ih =>
    rcases h a (List.mem_cons_self a rest) with ⟨b, hb⟩
    rcases ih (fun x hx => h x (List.mem_cons_of_mem _ hx)) with ⟨bs, hbs⟩
    exact ⟨b :: bs, by simp [mapExcept, hb, hbs]⟩

/-- Lemma: a batch map with at least one failing element fails. -/
theorem mapExcept_error_of_exists {α β : Type} (f : α → Except String β) (l : List α)
    (h : ∃ a ∈ l, ∃ e, f a = Except.error e) : ∃ e, mapExcept f l = Except.error e := by
  induction l with
  | nil =>
    rcases h with ⟨a, ha, _⟩
    cases ha
  | cons a rest ih =>
    cases hf : f a with
    | error e => exact ⟨e, by simp [mapExcept, hf]⟩
    | ok b =>
      rcases h with ⟨x, hx, e, he⟩
      rcases List.mem_cons.mp hx with rfl | hx2
      · rw [hf] at he
        exact Except.noConfusion he
      · rcases ih ⟨x, hx2, e, he⟩ with ⟨e2, he2⟩
        exact ⟨e2, by simp [mapExcept, hf, he2]⟩

/-- Lemma: asset normalization throws exactly when no network variant is
fuel-typed. -/
theorem normalizeAsset_error_iff (a : Asset) :
    (∃ e, normalizeAsset a = Except.error e) ↔ ∀ n ∈ a.networks, n.type ≠ "fuel" := by
  constructor
  · rintro ⟨e, he⟩ n hn hty
    cases hf : a.networks.find? (fun x => x.type == "fuel") with
    | some m =>
      unfold normalizeAsset at he
      rw [hf] at he
      exact Except.noConfusion he
    | none =>
      have := List.find?_eq_none.mp hf n hn
      simp [hty] at this
  · intro h
    unfold normalizeAsset
    cases hf : a.networks.find? (fun x => x.type == "fuel") with
    | none => exact ⟨_, rfl⟩
    | some m =>
      have hm := List.mem_of_find?_eq_some hf
      have hp := List.find?_some hf
      simp only [beq_iff_eq] at hp
      exact absurd hp (h m hm)

/-- Claim C2, counterexample: the probe that carries the 800ms timeout is
`ping`, and on an agent that never replies it rejects with the timeout error —
it does not resolve to `false` as the claim states. -/
theorem ping_timeout_rejects_counterexample :
    ping AgentBehavior.silent = CallOutcome.rejected "Request timeout" ∧
    CallOutcome.rejected "Request timeout" ≠ CallOutcome.resolved false := by
  exact ⟨rfl, by decide⟩

/-- Claim C2 (amended): `isConnected` never rejects observably — every
agent-reported error resolves to `false` — but it sets no timeout, so a silent
agent leaves it unsettled. The 800ms timeout belongs to `ping`, which always
settles but propagates every underlying failure to its caller as a rejection:
a silent agent and a reply arriving at or after 800ms reject with the timeout
error, and an in-time agent-reported error rejects with that error; only an
in-time result resolves. -/
theorem probe_failure_handling (agent : AgentBehavior) :
    (∀ e, isConnected agent ≠ CallOutcome.rejected e) ∧
    (∀ e t, agent = AgentBehavior.repliesError e t →
       isConnected agent = CallOutcome.resolved false) ∧
    (agent = AgentBehavior.silent → isConnected agent = CallOutcome.pending) ∧
    ping agent ≠ CallOutcome.pending ∧
    (agent = AgentBehavior.silent →
       ping agent = CallOutcome.rejected "Request timeout") ∧
    (∀ e t, agent = AgentBehavior.repliesError e t →
       ping agent = CallOutcome.rejected (if t < 800 then e else "Request timeout")) ∧
    (∀ b t, agent = AgentBehavior.replies b t → 800 ≤ t →
       ping agent = CallOutcome.rejected "Request timeout") ∧
    (∀ b t, agent = AgentBehavior.replies b t → t < 800 →
       ping agent = CallOutcome.resolved b) := by
  refine ⟨?_, ?_, ?_, ?_, ?_, ?_, ?_, ?_⟩
  · intro e
    cases agent <;> simp [isConnected, rpcRequest]
  · rintro e t rfl
    simp [isConnected, rpcRequest]
  · rintro rfl
    rfl
  · cases agent with
    | replies b t =>
      by_cases ht : t < 800 <;> simp [ping, rpcRequest, ht]
    | repliesError e t =>
      by_cases ht : t < 800 <;> simp [ping, rpcRequest, ht]
    | silent => simp [ping, rpcRequest]
  · rintro rfl
    rfl
  · rintro e t rfl
    by_cases ht : t < 800 <;> simp [ping, rpcRequest, ht]
  · rintro b t rfl hle
    simp [ping, rpcRequest, Nat.not_lt.mpr hle]
  · rintro b t rfl hlt
    simp [ping, rpcRequest, hlt]

/-- Witness for the amended claim C2 at concrete agents: an in-time agent
error resolves `isConnected` to `false`, while `ping` rejects for a silent
agent, an in-time agent error, and a late reply. -/
theorem probe_failure_handling_witness :
    isConnected (AgentBehavior.repliesError "boom" 5) = CallOutcome.resolved false ∧
    ping AgentBehavior.silent = CallOutcome.rejected "Request timeout" ∧
    ping (AgentBehavior.repliesError "boom" 5) = CallOutcome.rejected "boom" ∧
    ping (AgentBehavior.replies true 900) = CallOutcome.rejected "Request timeout" := by
  refine ⟨(probe_failure_handling (AgentBehavior.repliesError "boom" 5)).2.1 "boom" 5 rfl,
          (probe_failure_handling AgentBehavior.silent).2.2.2.2.1 rfl,
          ?_,
          (probe_failure_handling (AgentBehavior.replies true 900)).2.2.2.2.2.2.1
            true 900 rfl (by decide)⟩
  have h := (probe_failure_handling
    (AgentBehavior.repliesError "boom" 5)).2.2.2.2.2.1 "boom" 5 rfl
  simpa using h

/-- Claim C3, counterexample: an object carrying only an identifier field
whose value is the empty string is returned whole by `sendTransaction`
(`resp?.id || resp` falls through on a falsy `id`), not as the identifier the
claim promises. -/
theorem sendTransaction_empty_id_counterexample :
    sendTransactionResult (JsVal.obj [("id", JsVal.str "")]) =
      SendTxOutcome.plain (JsVal.obj [("id", JsVal.str "")]) ∧
    SendTxOutcome.plain (JsVal.obj [("id", JsVal.str "")]) ≠
      SendTxOutcome.plain (JsVal.str "") := by
  refine ⟨rfl, ?_⟩
  intro h
  simp at h

/-- Claim C3 (amended): a result object with both `id` and `providerCache` is
reconstructed into the rich response type; a bare identifier string is
returned unchanged; an object carrying only an `id` field yields the
identifier when its value is truthy and the whole object when it is falsy
(e.g. an empty string). -/
theorem sendTransaction_result_shape :
    (∀ fields, (JsVal.obj fields).hasField "id" = true →
       (JsVal.obj fields).hasField "providerCache" = true →
       sendTransactionResult (JsVal.obj fields) =
         SendTxOutcome.rich (deserializeTransactionResponseJson (JsVal.obj fields))) ∧
    (∀ s, sendTransactionResult (JsVal.str s) = SendTxOutcome.plain (JsVal.str s)) ∧
    (∀ v, v.truthy = true →
       sendTransactionResult (JsVal.obj [("id", v)]) = SendTxOutcome.plain v) ∧
    (∀ v, v.truthy = false →
       sendTransactionResult (JsVal.obj [("id", v)]) =
         SendTxOutcome.plain (JsVal.obj [("id", v)])) := by
  refine ⟨?_, ?_, ?_, ?_⟩
  · intro fields h1 h2
    simp [sendTransactionResult, JsVal.isObjectType, h1, h2]
  · intro s
    simp [sendTransactionResult, JsVal.isObjectType, JsVal.hasField, JsVal.getField]
  · intro v hv
    have h2 : (JsVal.obj [("id", v)]).hasField "providerCache" = false := rfl
    have h3 : (JsVal.obj [("id", v)]).getField "id" = some v := rfl
    simp [sendTransactionResult, h2, h3, hv]
  · intro v hv
    have h2 : (JsVal.obj [("id", v)]).hasField "providerCache" = false := rfl
    have h3 : (JsVal.obj [("id", v)]).getField "id" = some v := rfl
    simp [sendTransactionResult, h2, h3, hv]

/-- Witness for the amended claim C3 at concrete RPC results. -/
theorem sendTransaction_result_shape_witness :
    sendTransactionResult
        (JsVal.obj [("id", JsVal.str "0xabc"), ("providerCache", JsVal.obj [])]) =
      SendTxOutcome.rich (deserializeTransactionResponseJson
        (JsVal.obj [("id", JsVal.str "0xabc"), ("providerCache", JsVal.obj [])])) ∧
    sendTransactionResult (JsVal.obj [("id", JsVal.str "0xabc")]) =
      SendTxOutcome.plain (JsVal.str "0xabc") :=
  ⟨sendTransaction_result_shape.1 [("id", JsVal.str "0xabc"), ("providerCache", JsVal.obj [])]
      rfl rfl,
   sendTransaction_result_shape.2.2.1 (JsVal.str "0xabc") rfl⟩

/-- Claim C7: in a window environment the presence announcement is dispatched
exactly when the readiness probe resolves, and neither a rejection nor a
timeout of the probe escapes `setupConnector`. -/
theorem setupConnector_announce (agent : AgentBehavior) :
    ((setupConnector true agent).announced = true ↔
       ∃ b, ping agent = CallOutcome.resolved b) ∧
    (setupConnector true agent).propagated = none := by
  constructor
  · cases h : ping agent <;> simp [setupConnector, h]
  · cases h : ping agent <;> simp [setupConnector, h]

/-- Claim C8: `addNetwork` evaluates the chain-metadata lookup while building
the request parameters, so a failed lookup propagates unchanged with zero RPC
calls issued, and a successful lookup yields the single `addNetwork` call
carrying the URL and the looked-up chain name. -/
theorem addNetwork_lookup_precedes (networkUrl : String) :
    (∀ e, addNetwork networkUrl (Except.error e) = Except.error e ∧
       sentCalls (addNetwork networkUrl (Except.error e)) = []) ∧
    (∀ chain, sentCalls (addNetwork networkUrl (Except.ok chain)) =
       [{ method := "addNetwork",
          params := CallParams.addNetworkP networkUrl chain.name }]) :=
  ⟨fun _ => ⟨rfl, rfl⟩, fun _ => rfl⟩

/-- Claim C10: `addAsset` is extensionally the singleton-batch `addAssets`
call — same validation, same single RPC request, same result or error. -/
theorem addAsset_eq_addAssets_singleton (asset : Asset) :
    addAsset asset = addAssets [asset] := rfl

/-- Claim C4: event tuples are routed in array order; a tuple named by the
reserved `start` event becomes a `setupConnector` re-trigger and is never
emitted to subscribers, while every other tuple is emitted with its parameter
list. -/
theorem event_routing (evs : List EventTuple) :
    onEvent evs = evs.map (fun e =>
      if e.event == "start" then EvAction.setup else EvAction.emit e.event e.params) ∧
    (∀ p, EvAction.emit "start" p ∉ onEvent evs) ∧
    (∀ e ∈ evs, e.event ≠ "start" → EvAction.emit e.event e.params ∈ onEvent evs) ∧
    (∀ e ∈ evs, e.event = "start" → EvAction.setup ∈ onEvent evs) := by
  have hmap : onEvent evs = evs.map (fun e =>
      if e.event == "start" then EvAction.setup else EvAction.emit e.event e.params) := by
    induction evs with
    | nil => rfl
    | cons e rest ih => simp [onEvent, ih]
  refine ⟨hmap, ?_, ?_, ?_⟩
  · intro p hp
    rw [hmap] at hp
    rcases List.mem_map.mp hp with ⟨e, _, heq⟩
    by_cases hs : e.event == "start"
    · rw [if_pos hs] at heq
      exact EvAction.noConfusion heq
    · rw [if_neg hs] at heq
      injection heq with h1 _
      simp [h1] at hs
  · intro e he hne
    rw [hmap]
    refine List.mem_map.mpr ⟨e, he, ?_⟩
    have hb : (e.event == "start") = false := beq_eq_false_iff_ne.mpr hne
    simp [hb]
  · intro e he hs
    rw [hmap]
    exact List.mem_map.mpr ⟨e, he, by simp [hs]⟩

/-- Witness for claim C4 on a concrete two-tuple notification. -/
theorem event_routing_witness :
    EvAction.emit "accounts" [JsVal.str "0x1"] ∈
      onEvent [{ event := "start", params := [] },
               { event := "accounts", params := [JsVal.str "0x1"] }] ∧
    (∀ p, EvAction.emit "start" p ∉
      onEvent [{ event := "start", params := [] },
               { event := "accounts", params := [JsVal.str "0x1"] }]) ∧
    EvAction.setup ∈
      onEvent [{ event := "start", params := [] },
               { event := "accounts", params := [JsVal.str "0x1"] }] := by
  refine ⟨?_, ?_, ?_⟩
  · exact (event_routing _).2.2.1 { event := "accounts", params := [JsVal.str "0x1"] }
      (List.mem_cons_of_mem _ (List.mem_cons_self _ _)) (by decide)
  · exact (event_routing _).2.1
  · exact (event_routing _).2.2.2 { event := "start", params := [] }
      (List.mem_cons_self _ _) rfl

/-- Claim C5: an `addAssets` batch containing an asset with no fuel-typed
network variant throws the validation error with zero RPC calls issued; a
batch whose every asset carries a fuel variant issues exactly one `addAssets`
call with the normalized data. -/
theorem addAssets_validation (assets : List Asset) :
    ((∃ a ∈ assets, ∀ n ∈ a.networks, n.type ≠ "fuel") →
       (∃ e, addAssets assets = Except.error e) ∧ sentCalls (addAssets assets) = []) ∧
    ((∀ a ∈ assets, ∃ n ∈ a.networks, n.type = "fuel") →
       ∃ ds, mapExcept normalizeAsset assets = Except.ok ds ∧
         sentCalls (addAssets assets) =
           [{ method := "addAssets", params := CallParams.addAssetsP ds }]) := by
  constructor
  · intro h
    have hex : ∃ a ∈ assets, ∃ e, normalizeAsset a = Except.error e := by
      rcases h with ⟨a, ha, hall⟩
      exact ⟨a, ha, (normalizeAsset_error_iff a).mpr hall⟩
    rcases mapExcept_error_of_exists _ _ hex with ⟨e, he⟩
    exact ⟨⟨e, by simp [addAssets, he]⟩, by simp [addAssets, he, sentCalls]⟩
  · intro h
    have hok : ∀ a ∈ assets, ∃ b, normalizeAsset a = Except.ok b := by
      intro a ha
      rcases h a ha with ⟨n, hn, hty⟩
      have hsome : (a.networks.find? (fun x => x.type == "fuel")).isSome := by
        rw [List.find?_isSome]
        exact ⟨n, hn, by simp [hty]⟩
      cases hf : a.networks.find? (fun x => x.type == "fuel") with
      | none => rw [hf] at hsome; simp at hsome
      | some m => exact ⟨_, by unfold normalizeAsset; rw [hf]⟩
    rcases mapExcept_ok_of_forall _ _ hok with ⟨ds, hds⟩
    exact ⟨ds, hds, by simp [addAssets, hds, sentCalls]⟩

/-- Witness for claim C5: a batch with an ethereum-only asset sends nothing; a
batch with a fuel-variant asset sends the one normalized call. -/
theorem addAssets_validation_witness :
    sentCalls (addAssets
      [{ name := "Token", symbol := "TKN", icon := "tkn.svg",
         networks := [{ type := "ethereum", assetId := none, decimals := some 18 }] }]) = [] ∧
    ∃ ds, mapExcept normalizeAsset
        [{ name := "Ether", symbol := "ETH", icon := "eth.svg",
           networks := [{ type := "fuel", assetId := some "0xaa", decimals := some 9 }] }] =
        Except.ok ds ∧
      sentCalls (addAssets
        [{ name := "Ether", symbol := "ETH", icon := "eth.svg",
           networks := [{ type := "fuel", assetId := some "0xaa", decimals := some 9 }] }]) =
        [{ method := "addAssets", params := CallParams.addAssetsP ds }] :=
  ⟨((addAssets_validation _).1 (by decide)).2,
   (addAssets_validation _).2 (by decide)⟩

/-- Claim C6, counterexample: an object message whose `personalSign` field is
present but holds the empty string is rejected by `signMessage` with the
validation error — the claim's "otherwise one RPC request" case does not
hold for it. -/
theorem signMessage_empty_personalSign_counterexample :
    signMessage "0xabc" (HashableMessage.objMsg (some (PSVal.str ""))) =
      Except.error "Message is required" ∧
    sentCalls (signMessage "0xabc" (HashableMessage.objMsg (some (PSVal.str "")))) = [] :=
  ⟨rfl, rfl⟩

/-- Claim C6 (amended): `signMessage` throws the validation error
synchronously and sends nothing exactly when the message is a string trimming
to empty or an object whose `personalSign` is absent or falsy (e.g. the empty
string); otherwise it issues exactly one `signMessage` call. -/
theorem signMessage_validation (address : String) (message : HashableMessage) :
    (msgFailsValidation message = true →
       signMessage address message = Except.error "Message is required" ∧
       sentCalls (signMessage address message) = []) ∧
    (msgFailsValidation message = false →
       sentCalls (signMessage address message) =
         [{ method := "signMessage",
            params := CallParams.signMessageP address message }]) := by
  constructor
  · intro h
    cases message with
    | str s =>
      simp [msgFailsValidation] at h
      simp [signMessage, h, sentCalls]
    | objMsg ps =>
      simp [msgFailsValidation] at h
      simp [signMessage, h, sentCalls]
  · intro h
    cases message with
    | str s =>
      simp [msgFailsValidation] at h
      simp [signMessage, h, sentCalls]
    | objMsg ps =>
      simp [msgFailsValidation] at h
      simp [signMessage, h, sentCalls]

/-- Witness for the amended claim C6: a whitespace-only string is rejected
with no call; a non-blank string issues the one call. -/
theorem signMessage_validation_witness :
    sentCalls (signMessage "0xabc" (HashableMessage.str "   ")) = [] ∧
    sentCalls (signMessage "0xabc" (HashableMessage.str "hello")) =
      [{ method := "signMessage",
         params := CallParams.signMessageP "0xabc" (HashableMessage.str "hello") }] :=
  ⟨((signMessage_validation "0xabc" (HashableMessage.str "   ")).1 (by decide)).2,
   (signMessage_validation "0xabc" (HashableMessage.str "hello")).2 (by decide)⟩

/-- Claim C1: an inbound message is handed to `onCommunicationMessage`
exactly when the four acceptance checks hold — same origin, kind not
`request`, matching connector name, page-side target — and a message failing
any check leaves the state unchanged. -/
theorem message_acceptance (windowOrigin : String) (s : ConnectorState) (m : MessageEvent) :
    (acceptMessage s.name windowOrigin m = true ↔
       (m.origin = windowOrigin ∧ m.data.body.msgType ≠ MessageType.request ∧
        m.data.connectorName = s.name ∧ m.data.target = CONNECTOR_SCRIPT)) ∧
    (acceptMessage s.name windowOrigin m = true →
       onMessage windowOrigin s m = onCommunicationMessage s m.data) ∧
    (acceptMessage s.name windowOrigin m = false →
       onMessage windowOrigin s m = s) := by
  refine ⟨?_, ?_, ?_⟩
  · simp [acceptMessage, and_assoc]
  · intro h
    simp [onMessage, h]
  · intro h
    simp [onMessage, h]

/-- Witness for claim C1: a well-addressed response message is dispatched; the
same message arriving from a foreign origin is dropped without a state
change. -/
theorem message_acceptance_witness :
    onMessage "https://dapp.example" (mkConnector "Fuel Wallet")
      { origin := "https://dapp.example",
        data := { connectorName := "Fuel Wallet", target := CONNECTOR_SCRIPT,
                  body := MsgBody.response { id := "1", payload := JsVal.boolean true } } } =
      onCommunicationMessage (mkConnector "Fuel Wallet")
        { connectorName := "Fuel Wallet", target := CONNECTOR_SCRIPT,
          body := MsgBody.response { id := "1", payload := JsVal.boolean true } } ∧
    onMessage "https://dapp.example" (mkConnector "Fuel Wallet")
      { origin := "https://evil.example",
        data := { connectorName := "Fuel Wallet", target := CONNECTOR_SCRIPT,
                  body := MsgBody.response { id := "1", payload := JsVal.boolean true } } } =
      mkConnector "Fuel Wallet" :=
  ⟨(message_acceptance "https://dapp.example" (mkConnector "Fuel Wallet") _).2.1 (by decide),
   (message_acceptance "https://dapp.example" (mkConnector "Fuel Wallet") _).2.2 (by decide)⟩

/-- Lemma: event-action application never touches the identity or the
outbox. -/
theorem applyEvActions_preserves (acts : List EvAction) (s : ConnectorState) :
    (applyEvActions s acts).name = s.name ∧ (applyEvActions s acts).outbox = s.outbox := by
  induction acts generalizing s with
  | nil => exact ⟨rfl, rfl⟩
  | cons a rest ih =>
    cases a with
    | setup => simpa [applyEvActions] using ih _
    | emit n p => simpa [applyEvActions] using ih _

/-- Lemma: the protocol demultiplexer never touches the identity or the
outbox. -/
theorem onCommunicationMessage_preserves (s : ConnectorState) (m : CommunicationMessage) :
    (onCommunicationMessage s m).name = s.name ∧
    (onCommunicationMessage s m).outbox = s.outbox := by
  cases hb : m.body with
  | response r => simp [onCommunicationMessage, hb]
  | event evs => simpa [onCommunicationMessage, hb] using applyEvActions_preserves (onEvent evs) s
  | request r => simp [onCommunicationMessage, hb]

/-- Lemma: no single operation changes the connector name. -/
theorem applyOp_preserves_name (s : ConnectorState) (op : Op) :
    (applyOp s op).name = s.name := by
  cases op with
  | recv w m =>
    by_cases h : acceptMessage s.name w m = true
    · simp [applyOp, onMessage, h, (onCommunicationMessage_preserves s m.data).1]
    · simp [applyOp, onMessage, h]
  | send r =>
    cases r <;> simp [applyOp, sendRequest]

/-- Lemma: any message an operation adds to the outbox is stamped with the
state's own name. -/
theorem applyOp_outbox_stamp (s : ConnectorState) (op : Op) :
    ∀ msg ∈ (applyOp s op).outbox, msg ∈ s.outbox ∨ msg.connectorName = s.name := by
  cases op with
  | recv w m =>
    intro msg hm
    by_cases h : acceptMessage s.name w m = true
    · left
      simpa [applyOp, onMessage, h, (onCommunicationMessage_preserves s m.data).2] using hm
    · left
      simpa [applyOp, onMessage, h] using hm
  | send r =>
    intro msg hm
    cases r with
    | none => exact Or.inl (by simpa [applyOp, sendRequest] using hm)
    | some req =>
      simp [applyOp, sendRequest] at hm
      rcases hm with hm | hm
      · exact Or.inl hm
      · right
        rw [hm]

/-- Lemma: running any operation sequence preserves the connector name. -/
theorem runOps_preserves_name (ops : List Op) (s : ConnectorState) :
    (runOps s ops).name = s.name := by
  induction ops generalizing s with
  | nil => rfl
  | cons op rest ih =>
    show (runOps (applyOp s op) rest).name = s.name
    rw [ih (applyOp s op), applyOp_preserves_name]

/-- Lemma: every outbox message after any operation sequence was present
initially or is stamped with the state's name. -/
theorem runOps_outbox_stamp (ops : List Op) (s : ConnectorState) :
    ∀ msg ∈ (runOps s ops).outbox, msg ∈ s.outbox ∨ msg.connectorName = s.name := by
  induction ops generalizing s with
  | nil => exact fun msg hm => Or.inl hm
  | cons op rest ih =>
    intro msg hm
    rcases ih (applyOp s op) msg hm with h1 | h1
    · exact applyOp_outbox_stamp s op msg h1
    · right
      rwa [applyOp_preserves_name] at h1

/-- Claim C9: the connector identity is fixed at construction, unchanged by
every subsequent operation, and every outbound message is stamped with it. -/
theorem connector_identity_immutable (name : String) (ops : List Op) :
    (mkConnector name).name = name ∧
    (runOps (mkConnector name) ops).name = name ∧
    ∀ msg ∈ (runOps (mkConnector name) ops).outbox, msg.connectorName = name := by
  refine ⟨rfl, (runOps_preserves_name ops (mkConnector name)).trans rfl, ?_⟩
  intro msg hm
  rcases runOps_outbox_stamp ops (mkConnector name) msg hm with h | h
  · simp [mkConnector] at h
  · simpa [mkConnector] using h

/-- Witness for claim C9: after one outbound request the posted message in the
outbox carries the construction-time name. -/
theorem connector_identity_immutable_witness :
    ({ connectorName := "Fuel Wallet", target := CONTENT_SCRIPT_NAME,
       body := MsgBody.request { id := "1", method := "ping", params := JsVal.nullV } } :
      CommunicationMessage).connectorName = "Fuel Wallet" :=
  (connector_identity_immutable "Fuel Wallet"
      [Op.send (some { id := "1", method := "ping", params := JsVal.nullV })]).2.2
    _ (by simp [runOps, applyOp, sendRequest, mkConnector])

end FuelWallet
